import Mathlib

/-!
Verification of the task-lifecycle and persistence core of a desktop
time-tracking application (a floating start/pause/stop timer backed by a
SQLite task table, with a listing window for edits, recomputation and bulk
deletion).

The development shallowly embeds the Python modules `time_tracking.py`
(lifecycle controller), `alchemy.py` (task store) and the per-row body of
the listing window's duration-recompute action.  Timestamps are modelled by
a calendar `DateTime` record mirroring Python's `datetime`; its `isoformat`
textual encoding and `fromisoformat` parsing are implemented concretely on
character lists, durations are exact rationals (hours), and SQLite's
dynamically typed cells are a small `Value` type covering NULL, text and
numbers.  Fallible operations return `Except`.
-/

namespace JiraTracker

/-! ### Fixed-width decimal digits

`datetime.isoformat` prints every numeric field zero-padded to a fixed
width; `datetime.fromisoformat` reads the fields back.  We implement the
two directions on `List Char` and prove they invert each other. -/

/-- The ASCII digit character for `n < 10`. -/
def digitChar (n : Nat) : Char := Char.ofNat (48 + n)

/-- `padDigits k n` prints `n` in decimal, zero-padded to exactly `k`
digits, most significant digit first (as Python `"%0*d"` does). -/
def padDigits : Nat → Nat → List Char
  | 0, _ => []
  | k + 1, n => digitChar (n / 10 ^ k) :: padDigits k (n % 10 ^ k)

/-- Read exactly `k` decimal digits from the front of a character list,
accumulating into `acc`; fails if a non-digit or the end is met. -/
def parseFixed : Nat → Nat → List Char → Option (Nat × List Char)
  | 0, acc, cs => some (acc, cs)
  | _ + 1, _, [] => none
  | k + 1, acc, c :: cs =>
      if c.isDigit then parseFixed k (acc * 10 + (c.toNat - 48)) cs else none

theorem digitChar_isDigit {n : Nat} (h : n < 10) : (digitChar n).isDigit = true := by
  interval_cases n <;> decide

theorem digitChar_toNat {n : Nat} (h : n < 10) : (digitChar n).toNat = 48 + n := by
  interval_cases n <;> decide

theorem parseFixed_padDigits :
    ∀ (k n acc : Nat) (rest : List Char), n < 10 ^ k →
      parseFixed k acc (padDigits k n ++ rest) = some (acc * 10 ^ k + n, rest) := by
  intro k
  induction k with
  | zero =>
    intro n acc rest h
    interval_cases n
    simp [padDigits, parseFixed]
  | succ k ih =>
    intro n acc rest h
    have hq : n / 10 ^ k < 10 :=
      Nat.div_lt_of_lt_mul (by rw [← pow_succ]; exact h)
    have hr : n % 10 ^ k < 10 ^ k := Nat.mod_lt _ (Nat.pos_pow_of_pos k (by omega))
    simp only [padDigits, List.cons_append, List.append_eq, parseFixed,
      digitChar_isDigit hq, digitChar_toNat hq, if_true]
    rw [Nat.add_sub_cancel_left]
    rw [ih _ _ _ hr]
    have key : (acc * 10 + n / 10 ^ k) * 10 ^ k + n % 10 ^ k = acc * 10 ^ (k + 1) + n := by
      have hdm := Nat.div_add_mod n (10 ^ k)
      calc (acc * 10 + n / 10 ^ k) * 10 ^ k + n % 10 ^ k
          = acc * (10 ^ k * 10) + (10 ^ k * (n / 10 ^ k) + n % 10 ^ k) := by ring
        _ = acc * 10 ^ (k + 1) + n := by rw [hdm, ← pow_succ]
    rw [key]

/-- `parseFixed` with accumulator 0 recovers exactly the printed number. -/
theorem parseFixed_pad0 {k n : Nat} (rest : List Char) (h : n < 10 ^ k) :
    parseFixed k 0 (padDigits k n ++ rest) = some (n, rest) := by
  rw [parseFixed_padDigits k n 0 rest h]
  simp

/-! ### The `datetime` model

`DateTime` mirrors a timezone-naive Python `datetime.datetime` value:
calendar fields plus microseconds.  `toordinal`, `isoformat` and
`fromisoformat` follow CPython's `datetime` implementation (proleptic
Gregorian calendar; `fromisoformat` is modelled on the canonical-format
fragment, which is all the application ever feeds it: strings produced by
`isoformat`). -/

structure DateTime where
  year : Nat
  month : Nat
  day : Nat
  hour : Nat
  minute : Nat
  second : Nat
  usec : Nat
deriving DecidableEq

/-- Gregorian leap year, as CPython `datetime._is_leap`. -/
def isLeap (y : Nat) : Bool := (y % 4 == 0 && y % 100 != 0) || y % 400 == 0

/-- Days in month `m` of year `y`, as CPython `datetime._days_in_month`. -/
def daysInMonth (y m : Nat) : Nat :=
  if m = 2 then (if isLeap y then 29 else 28)
  else if m = 4 ∨ m = 6 ∨ m = 9 ∨ m = 11 then 30
  else 31

/-- Days in the months of year `y` strictly before month `m`
(CPython `datetime._days_before_month`). -/
def daysBeforeMonth (y : Nat) : Nat → Nat
  | 0 => 0
  | m + 1 => daysBeforeMonth y m + (if 1 ≤ m then daysInMonth y m else 0)

/-- Days strictly before January 1st of year `y`
(CPython `datetime._days_before_year`). -/
def daysBeforeYear (y : Nat) : Nat :=
  let py := y - 1
  py * 365 + py / 4 - py / 100 + py / 400

/-- Proleptic Gregorian ordinal of the date, with 0001-01-01 as day 1
(Python `date.toordinal`). -/
def DateTime.toordinal (d : DateTime) : Nat :=
  daysBeforeYear d.year + daysBeforeMonth d.year d.month + d.day

/-- The instant as rational seconds on the proleptic Gregorian time line;
differences of `toSeconds` agree with Python's
`(a - b).total_seconds()` for timezone-naive datetimes. -/
def DateTime.toSeconds (d : DateTime) : ℚ :=
  (d.toordinal : ℚ) * 86400 + (d.hour : ℚ) * 3600 + (d.minute : ℚ) * 60
    + (d.second : ℚ) + (d.usec : ℚ) / 1000000

/-- The field ranges Python's `datetime` constructor enforces. -/
def DateTime.validb (d : DateTime) : Bool :=
  1 ≤ d.year && d.year ≤ 9999 && 1 ≤ d.month && d.month ≤ 12
    && 1 ≤ d.day && d.day ≤ daysInMonth d.year d.month
    && d.hour ≤ 23 && d.minute ≤ 59 && d.second ≤ 59 && d.usec ≤ 999999

/-- The characters of Python `datetime.isoformat()`:
`YYYY-MM-DDTHH:MM:SS`, with `.ffffff` appended only when the microsecond
field is nonzero. -/
def isoChars (d : DateTime) : List Char :=
  padDigits 4 d.year ++ ('-' :: (padDigits 2 d.month ++ ('-' :: (padDigits 2 d.day ++
    ('T' :: (padDigits 2 d.hour ++ (':' :: (padDigits 2 d.minute ++ (':' :: (padDigits 2 d.second ++
      (if d.usec = 0 then [] else '.' :: padDigits 6 d.usec)))))))))))

/-- Python `datetime.isoformat()`. -/
def isoformat (d : DateTime) : String := String.mk (isoChars d)

/-- Consume one expected punctuation character. -/
def expectChar (c : Char) : List Char → Option (List Char)
  | [] => none
  | c' :: cs => if c' = c then some cs else none

theorem expectChar_cons (c : Char) (cs : List Char) : expectChar c (c :: cs) = some cs := by
  simp [expectChar]

/-! The parser for `fromisoformat` is written in sequential
continuation-passing style: each `cont…` function consumes the result of
one parsing step (a fixed-width number or an expected separator) and hands
the rest of the input to the next stage.  The whole chain is the
canonical-format fragment of CPython's `fromisoformat`. -/

/-- Build the parsed datetime, enforcing Python's constructor ranges. -/
def mkChecked (y mo da h mi s u : Nat) : Option DateTime :=
  if (⟨y, mo, da, h, mi, s, u⟩ : DateTime).validb then some ⟨y, mo, da, h, mi, s, u⟩ else none

def contUsec (y mo da h mi s : Nat) : Option (Nat × List Char) → Option DateTime
  | some (u, []) => mkChecked y mo da h mi s u
  | _ => none

/-- After the seconds: either the string ends, or a `.ffffff` fraction
follows and then the string ends. -/
def contTail (y mo da h mi s : Nat) : List Char → Option DateTime
  | [] => mkChecked y mo da h mi s 0
  | '.' :: cs => contUsec y mo da h mi s (parseFixed 6 0 cs)
  | _ => none

def contSecond (y mo da h mi : Nat) : Option (Nat × List Char) → Option DateTime
  | some (s, cs) => contTail y mo da h mi s cs
  | none => none

def contSecondSep (y mo da h mi : Nat) : Option (List Char) → Option DateTime
  | some cs => contSecond y mo da h mi (parseFixed 2 0 cs)
  | none => none

def contMinute (y mo da h : Nat) : Option (Nat × List Char) → Option DateTime
  | some (mi, cs) => contSecondSep y mo da h mi (expectChar ':' cs)
  | none => none

def contMinuteSep (y mo da h : Nat) : Option (List Char) → Option DateTime
  | some cs => contMinute y mo da h (parseFixed 2 0 cs)
  | none => none

def contHour (y mo da : Nat) : Option (Nat × List Char) → Option DateTime
  | some (h, cs) => contMinuteSep y mo da h (expectChar ':' cs)
  | none => none

def contHourSep (y mo da : Nat) : Option (List Char) → Option DateTime
  | some cs => contHour y mo da (parseFixed 2 0 cs)
  | none => none

def contDay (y mo : Nat) : Option (Nat × List Char) → Option DateTime
  | some (da, cs) => contHourSep y mo da (expectChar 'T' cs)
  | none => none

def contDaySep (y mo : Nat) : Option (List Char) → Option DateTime
  | some cs => contDay y mo (parseFixed 2 0 cs)
  | none => none

def contMonth (y : Nat) : Option (Nat × List Char) → Option DateTime
  | some (mo, cs) => contDaySep y mo (expectChar '-' cs)
  | none => none

def contMonthSep (y : Nat) : Option (List Char) → Option DateTime
  | some cs => contMonth y (parseFixed 2 0 cs)
  | none => none

def contYear : Option (Nat × List Char) → Option DateTime
  | some (y, cs) => contMonthSep y (expectChar '-' cs)
  | none => none

/-- Parse the canonical `isoformat` output back into a `DateTime`,
rejecting field values Python's `datetime` constructor would reject. -/
def parseISOChars (cs : List Char) : Option DateTime := contYear (parseFixed 4 0 cs)

/-- Python `datetime.fromisoformat`. -/
def fromisoformat (s : String) : Option DateTime := parseISOChars s.data

/-- Parsing the canonical textual encoding is a lossless round-trip. -/
theorem fromisoformat_isoformat (d : DateTime) (h : d.validb = true) :
    fromisoformat (isoformat d) = some d := by
  obtain ⟨y, mo, da, ho, mi, se, u⟩ := d
  have h' := h
  simp only [DateTime.validb, Bool.and_eq_true, decide_eq_true_eq] at h'
  obtain ⟨⟨⟨⟨⟨⟨⟨⟨⟨hy1, hy2⟩, hm1⟩, hm2⟩, hd1⟩, hd2⟩, hh⟩, hmi⟩, hs⟩, hu⟩ := h'
  have hy : y < 10 ^ 4 := by omega
  have hmo : mo < 10 ^ 2 := by omega
  have hda : da < 10 ^ 2 := by
    have : daysInMonth y mo ≤ 31 := by
      unfold daysInMonth
      split <;> [split <;> omega; split <;> omega]
    omega
  have hho : ho < 10 ^ 2 := by omega
  have hmi2 : mi < 10 ^ 2 := by omega
  have hse : se < 10 ^ 2 := by omega
  have huu : u < 10 ^ 6 := by omega
  show parseISOChars (isoChars ⟨y, mo, da, ho, mi, se, u⟩) = _
  unfold parseISOChars
  simp only [isoChars]
  rw [parseFixed_pad0 _ hy]
  simp only [contYear, expectChar_cons, contMonthSep]
  rw [parseFixed_pad0 _ hmo]
  simp only [contMonth, expectChar_cons, contDaySep]
  rw [parseFixed_pad0 _ hda]
  simp only [contDay, expectChar_cons, contHourSep]
  rw [parseFixed_pad0 _ hho]
  simp only [contHour, expectChar_cons, contMinuteSep]
  rw [parseFixed_pad0 _ hmi2]
  simp only [contMinute, expectChar_cons, contSecondSep]
  by_cases hu0 : u = 0
  · subst hu0
    rw [if_pos rfl]
    rw [parseFixed_pad0 _ hse]
    simp only [contSecond, contTail, mkChecked]
    rw [if_pos h]
  · rw [if_neg hu0]
    rw [show ('.' :: padDigits 6 u : List Char) = '.' :: (padDigits 6 u ++ []) by simp]
    rw [parseFixed_pad0 _ hse]
    simp only [contSecond, contTail]
    rw [parseFixed_pad0 _ huu]
    simp only [contUsec, mkChecked]
    rw [if_pos h]

/-- A Python `datetime.date`, as produced by `datetime.now().date()` or the
listing window's date selector. -/
structure PyDate where
  year : Nat
  month : Nat
  day : Nat
deriving DecidableEq

/-- The characters of `date.isoformat()`: `YYYY-MM-DD`. -/
def dateIsoChars (d : PyDate) : List Char :=
  padDigits 4 d.year ++ ('-' :: (padDigits 2 d.month ++ ('-' :: padDigits 2 d.day)))

/-- Python `date.isoformat()`. -/
def PyDate.isoformat (d : PyDate) : String := String.mk (dateIsoChars d)

/-- Python `datetime.date()`: drop the time-of-day fields. -/
def DateTime.date (d : DateTime) : PyDate := ⟨d.year, d.month, d.day⟩

/-! ### SQLite cell values and the task table

The `tasks` table columns are dynamically typed (SQLite); a cell is NULL,
text, or a number.  Python floats are modelled as exact rationals. -/

inductive Value where
  | vNone : Value
  | vStr : String → Value
  | vNum : ℚ → Value
deriving DecidableEq

/-- Python truthiness of a cell value: `None`, `""` and `0` are falsy. -/
def Value.truthy : Value → Bool
  | .vNone => false
  | .vStr s => if s = "" then false else true
  | .vNum q => if q = 0 then false else true

/-- The Python expression `(x or 0)` used for the previously stored
duration, as a numeric base value: `None` and `""` give `0`; a non-empty
stored string is the case where Python's later `+ float` would raise. -/
def Value.orZero : Value → Except Unit ℚ
  | .vNone => .ok 0
  | .vNum q => .ok q
  | .vStr s => if s = "" then .ok 0 else .error ()

/-- One row of the `tasks` table (`class Task` in `alchemy.py`).  The
primary key is kept as an integer; every other column is a dynamic cell. -/
structure Task where
  task_id : Int
  task_name : Value
  start_time : Value
  end_time : Value
  duration : Value
  jira_key : Value
  created_date : Value
  task_id_required : Value
  synced : Value
  notes : Value
  worklog_id : Value
deriving DecidableEq

/-- The non-key columns, used to state frame conditions about `update`. -/
inductive Field where
  | task_name | start_time | end_time | duration | jira_key
  | created_date | task_id_required | synced | notes | worklog_id
deriving DecidableEq

/-- The Python attribute name of a column. -/
def Field.pyName : Field → String
  | .task_name => "task_name"
  | .start_time => "start_time"
  | .end_time => "end_time"
  | .duration => "duration"
  | .jira_key => "jira_key"
  | .created_date => "created_date"
  | .task_id_required => "task_id_required"
  | .synced => "synced"
  | .notes => "notes"
  | .worklog_id => "worklog_id"

/-- Read a column of a row. -/
def Task.get (t : Task) : Field → Value
  | .task_name => t.task_name
  | .start_time => t.start_time
  | .end_time => t.end_time
  | .duration => t.duration
  | .jira_key => t.jira_key
  | .created_date => t.created_date
  | .task_id_required => t.task_id_required
  | .synced => t.synced
  | .notes => t.notes
  | .worklog_id => t.worklog_id

/-- Python `setattr(task, key, value)` for the whitelisted column names
(other keys never reach `setattr` in `update_task`). -/
def setattrTask (t : Task) (k : String) (v : Value) : Task :=
  if k = "task_name" then { t with task_name := v }
  else if k = "start_time" then { t with start_time := v }
  else if k = "end_time" then { t with end_time := v }
  else if k = "duration" then { t with duration := v }
  else if k = "jira_key" then { t with jira_key := v }
  else if k = "synced" then { t with synced := v }
  else if k = "notes" then { t with notes := v }
  else if k = "worklog_id" then { t with worklog_id := v }
  else t

/-- The `valid_fields` whitelist of `update_task`. -/
def valid_fields : List String :=
  ["task_name", "start_time", "end_time", "duration", "jira_key", "synced",
   "notes", "worklog_id"]

/-- Apply the kwargs of one `update_task` call in order. -/
def applyFields (t : Task) (fields : List (String × Value)) : Task :=
  fields.foldl (fun t kv => setattrTask t kv.1 kv.2) t

/-! ### The task store (`alchemy.py`) -/

/-- The persisted state: the rows in insertion order plus the next
auto-assigned primary key. -/
structure Store where
  tasks : List Task
  nextId : Int
deriving DecidableEq

/-- Primary keys already assigned are below the auto-increment counter. -/
def Store.wf (s : Store) : Prop := ∀ t ∈ s.tasks, t.task_id < s.nextId

/-- The error kinds the embedded operations surface (the spec's
`NotFoundError`, `InvalidStateError` and `StorageError`, plus the raises
of `datetime` parsing and of adding a float to a non-number). -/
inductive Err where
  | notFound | invalidState | storageFault | parseFail | typeFault
deriving DecidableEq

/-- Wrap `None`-able string arguments as cells. -/
def optStr : Option String → Value
  | none => .vNone
  | some s => .vStr s

/-- `create_task`: insert a fresh row with `created_date = now()` and all
time/duration cells NULL, returning the new id. -/
def create_task (s : Store) (now : DateTime) (task_name : String)
    (jira_key notes : Option String) : Store × Int :=
  let t : Task :=
    { task_id := s.nextId
      task_name := .vStr task_name
      start_time := .vNone
      end_time := .vNone
      duration := .vNone
      jira_key := optStr jira_key
      created_date := .vStr (isoformat now)
      task_id_required := .vNum 0
      synced := .vNum 0
      notes := optStr notes
      worklog_id := .vNone }
  ({ tasks := s.tasks ++ [t], nextId := s.nextId + 1 }, s.nextId)

/-- `get_task`: point lookup by primary key (`.filter_by(task_id).first()`). -/
def get_task (s : Store) (tid : Int) : Option Task :=
  s.tasks.find? fun t => t.task_id = tid

/-- Replace the first row satisfying `p` by its image under `f` (the row
`.first()` returns is the one mutated and committed). -/
def replaceFirst (p : Task → Bool) (f : Task → Task) : List Task → List Task
  | [] => []
  | t :: ts => if p t then f t :: ts else t :: replaceFirst p f ts

/-- `update_task(task_id, **kwargs)`: keep only whitelisted keys; if none
remain return without touching the database; otherwise look the row up and
set the surviving attributes.  When the row does not exist, Python's
`setattr(None, …)` raises before any commit, so the state is unchanged and
the caller sees an error (the spec's `StorageError`). -/
def update_task (s : Store) (tid : Int) (kwargs : List (String × Value)) :
    Except Err Store :=
  let update_fields := kwargs.filter fun kv => valid_fields.contains kv.1
  if update_fields.isEmpty then .ok s
  else
    match get_task s tid with
    | none => .error .storageFault
    | some _ =>
        .ok { s with
              tasks := replaceFirst (fun t => t.task_id = tid)
                (fun t => applyFields t update_fields) s.tasks }

/-- The descending-id comparison of `order_by(Task.task_id.desc())`. -/
def byIdDesc (a b : Task) : Bool := b.task_id ≤ a.task_id

/-- The `LIKE "{prefix}%"` filter on the textual `created_date` column
(the prefix is an ISO date, so it contains no LIKE wildcards and no
letters; NULL never matches). -/
def likePrefix (p : List Char) (v : Value) : Bool :=
  match v with
  | .vStr s => p.isPrefixOf s.data
  | _ => false

/-- `get_tasks_for_date(date)`: rows whose `created_date` starts with the
date's ISO form, newest id first. -/
def get_tasks_for_date (s : Store) (d : PyDate) : List Task :=
  ((s.tasks.filter fun t => likePrefix (dateIsoChars d) t.created_date).mergeSort byIdDesc)

/-- `get_tasks_for_today()`: the same query with `datetime.now().date()`. -/
def get_tasks_for_today (s : Store) (now : DateTime) : List Task :=
  ((s.tasks.filter fun t => likePrefix (dateIsoChars now.date) t.created_date).mergeSort
    byIdDesc)

/-- `delete_tasks(task_ids)`: one bulk `DELETE WHERE task_id IN (…)`. -/
def delete_tasks (s : Store) (ids : List Int) : Store :=
  { s with tasks := s.tasks.filter fun t => !(ids.contains t.task_id) }

/-! ### The lifecycle controller (`time_tracking.py`) -/

/-- An argument to `calculate_duration`: a `datetime` object, an
isoformat string, or `None`. -/
inductive TimeInput where
  | noneV : TimeInput
  | dt : DateTime → TimeInput
  | str : String → TimeInput

/-- Python truthiness of such an argument (`None` and `""` are falsy;
`datetime` objects are always truthy). -/
def TimeInput.truthy : TimeInput → Bool
  | .noneV => false
  | .dt _ => true
  | .str s => if s = "" then false else true

/-- The `isinstance(x, str)` dispatch of `calculate_duration`: parse a
string argument with `fromisoformat`, pass a `datetime` through. -/
def toDT : TimeInput → Except Err DateTime
  | .dt d => .ok d
  | .str s =>
      match fromisoformat s with
      | some d => .ok d
      | none => .error .parseFail
  | .noneV => .error .typeFault

/-- `calculate_duration(start_time, end_time)`: `0.0` when either endpoint
is falsy, otherwise the difference of the (possibly parsed) instants in
seconds divided by 3600. -/
def calculate_duration (start_time end_time : TimeInput) : Except Err ℚ :=
  if !start_time.truthy || !end_time.truthy then .ok 0
  else do
    let s ← toDT start_time
    let e ← toDT end_time
    .ok ((e.toSeconds - s.toSeconds) / 3600)

/-- The expression
`start_time = datetime.fromisoformat(task[2]) if task[2] else None`
of `pause_task`/`stop_task`: a falsy cell gives `None`; a truthy string is
parsed (raising on malformed text); a truthy non-string would make
`fromisoformat` raise a `TypeError`. -/
def startOfTask (v : Value) : Except Err (Option DateTime) :=
  if v.truthy then
    match v with
    | .vStr s =>
        match fromisoformat s with
        | some d => .ok (some d)
        | none => .error .parseFail
    | _ => .error .typeFault
  else .ok none

/-- `start_task(task_name, jira_key, notes)`: create the row (stamping
`created_date` at instant `nowCreate`), then write `start_time` (stamped
at the slightly later instant `nowStart`) through `update_task`, and
return the new id. -/
def start_task (s : Store) (nowCreate nowStart : DateTime) (task_name : String)
    (jira_key notes : Option String) : Except Err (Store × Int) :=
  let (s1, tid) := create_task s nowCreate task_name jira_key notes
  (update_task s1 tid [("start_time", .vStr (isoformat nowStart))]).map fun s2 => (s2, tid)

/-- `pause_task(task_id)` at instant `now`: require the row to exist and
`start_time` to be truthy, add the elapsed hours of the session to the
previously stored duration, write `end_time` and the new total, and
return the new total. -/
def pause_task (s : Store) (now : DateTime) (tid : Int) : Except Err (Store × ℚ) := do
  match get_task s tid with
  | none => .error .notFound
  | some task =>
    let st? ← startOfTask task.start_time
    match st? with
    | none => .error .invalidState
    | some start_time =>
      let new_duration ← calculate_duration (.dt start_time) (.dt now)
      match task.duration.orZero with
      | .error _ => .error .typeFault
      | .ok base =>
        let total_duration := base + new_duration
        let s' ← update_task s tid
          [("end_time", .vStr (isoformat now)), ("duration", .vNum total_duration)]
        .ok (s', total_duration)

/-- `resume_task(task_id)` at instant `now`: require only that the row
exists, then set `start_time = now` and clear `end_time`. -/
def resume_task (s : Store) (now : DateTime) (tid : Int) : Except Err Store :=
  match get_task s tid with
  | none => .error .notFound
  | some _ =>
      update_task s tid [("start_time", .vStr (isoformat now)), ("end_time", .vNone)]

/-- `stop_task(task_id)` at instant `now`: same preconditions and duration
computation as `pause_task` (the two function bodies differ only in log
text). -/
def stop_task (s : Store) (now : DateTime) (tid : Int) : Except Err (Store × ℚ) := do
  match get_task s tid with
  | none => .error .notFound
  | some task =>
    let st? ← startOfTask task.start_time
    match st? with
    | none => .error .invalidState
    | some start_time =>
      let new_duration ← calculate_duration (.dt start_time) (.dt now)
      match task.duration.orZero with
      | .error _ => .error .typeFault
      | .ok base =>
        let total_duration := base + new_duration
        let s' ← update_task s tid
          [("end_time", .vStr (isoformat now)), ("duration", .vNum total_duration)]
        .ok (s', total_duration)

/-! ### The listing window's manual recompute
(`MainWindow.recalculate_selected_durations`, per selected row) -/

/-- For one selected row the listing window reads the start and end cell
texts, recomputes `calculate_duration(start_text, end_text)` and writes
the result straight into the `duration` column — a full replace of the
stored value, not an accumulation. -/
def recalcRow (s : Store) (tid : Int) (startText endText : String) :
    Except Err Store := do
  let new_duration ← calculate_duration (.str startText) (.str endText)
  update_task s tid [("duration", .vNum new_duration)]

/-! ### Basic lemmas about the embedded operations -/

theorem bindOk {α β : Type} (a : α) (f : α → Except Err β) :
    (Except.ok a : Except Err α) >>= f = f a := rfl

theorem length_padDigits (k n : Nat) : (padDigits k n).length = k := by
  induction k generalizing n with
  | zero => rfl
  | succ k ih => simp [padDigits, ih]

theorem padDigits_inj {k a b : Nat} (ha : a < 10 ^ k) (hb : b < 10 ^ k)
    (h : padDigits k a = padDigits k b) : a = b := by
  have h1 := parseFixed_pad0 ([] : List Char) ha
  rw [h, parseFixed_pad0 _ hb] at h1
  simpa using h1.symm

theorem setattrTask_task_id (t : Task) (k : String) (v : Value) :
    (setattrTask t k v).task_id = t.task_id := by
  unfold setattrTask
  split_ifs <;> rfl

theorem applyFields_task_id (fields : List (String × Value)) (t : Task) :
    (applyFields t fields).task_id = t.task_id := by
  induction fields generalizing t with
  | nil => rfl
  | cons kv rest ih =>
      show (applyFields (setattrTask t kv.1 kv.2) rest).task_id = t.task_id
      rw [ih, setattrTask_task_id]

theorem get_setattrTask (t : Task) (v : Value) (f : Field) {k : String}
    (hk : k ∈ valid_fields) :
    (setattrTask t k v).get f = if f.pyName = k then v else t.get f := by
  simp only [valid_fields, List.mem_cons, List.not_mem_nil, or_false] at hk
  rcases hk with rfl | rfl | rfl | rfl | rfl | rfl | rfl | rfl
  all_goals cases f <;> simp [setattrTask, Task.get, Field.pyName]

/-- The net value a column receives from one `update_task` call: the last
whitelisted supplied value for that column, or the previous one. -/
def appliedValue (kwargs : List (String × Value)) (f : Field) (old : Value) : Value :=
  (kwargs.filter fun kv => valid_fields.contains kv.1).foldl
    (fun acc kv => if f.pyName = kv.1 then kv.2 else acc) old

theorem get_applyFields (fields : List (String × Value)) (t : Task) (f : Field)
    (hf : ∀ kv ∈ fields, kv.1 ∈ valid_fields) :
    (applyFields t fields).get f =
      fields.foldl (fun acc kv => if f.pyName = kv.1 then kv.2 else acc) (t.get f) := by
  induction fields generalizing t with
  | nil => rfl
  | cons kv rest ih =>
      show (applyFields (setattrTask t kv.1 kv.2) rest).get f = _
      rw [ih _ fun kv h => hf kv (List.mem_cons_of_mem _ h),
        get_setattrTask t kv.2 f (hf kv (List.mem_cons_self _ _))]
      rfl

theorem find?_replaceFirst (p : Task → Bool) (f : Task → Task)
    (hpf : ∀ t, p t = true → p (f t) = true) :
    ∀ (l : List Task) (t : Task), l.find? p = some t →
      (replaceFirst p f l).find? p = some (f t) := by
  intro l
  induction l with
  | nil => intro t h; simp [List.find?] at h
  | cons a l ih =>
      intro t h
      by_cases hp : p a = true
      · rw [List.find?_cons_of_pos _ hp] at h
        cases h
        rw [replaceFirst, if_pos hp, List.find?_cons_of_pos _ (hpf _ hp)]
      · rw [List.find?_cons_of_neg _ (by simpa using hp)] at h
        rw [replaceFirst, if_neg hp, List.find?_cons_of_neg _ (by simpa using hp)]
        exact ih t h

theorem mem_replaceFirst_of_ne (p : Task → Bool) (f : Task → Task) :
    ∀ (l : List Task) (u : Task), u ∈ l → p u = false → u ∈ replaceFirst p f l := by
  intro l
  induction l with
  | nil => intro u h; simp at h
  | cons a l ih =>
      intro u h hu
      by_cases hp : p a = true
      · rw [replaceFirst, if_pos hp]
        rcases List.mem_cons.mp h with rfl | h
        · rw [hp] at hu; cases hu
        · exact List.mem_cons_of_mem _ h
      · rw [replaceFirst, if_neg hp]
        rcases List.mem_cons.mp h with rfl | h
        · exact List.mem_cons_self _ _
        · exact List.mem_cons_of_mem _ (ih u h hu)

theorem replaceFirst_id (p : Task → Bool) (f : Task → Task) (hf : ∀ t, f t = t) :
    ∀ l : List Task, replaceFirst p f l = l := by
  intro l
  induction l with
  | nil => rfl
  | cons a l ih =>
      rw [replaceFirst]
      split_ifs with hp
      · rw [hf]
      · rw [ih]

/-! ### Behaviour of the store operations -/

theorem update_task_noop (s : Store) (tid : Int) (kwargs : List (String × Value))
    (he : (kwargs.filter fun kv => valid_fields.contains kv.1) = []) :
    update_task s tid kwargs = .ok s := by
  unfold update_task
  rw [he]
  rfl

theorem update_task_missing (s : Store) (tid : Int) (kwargs : List (String × Value))
    (hmiss : get_task s tid = none)
    (hne : (kwargs.filter fun kv => valid_fields.contains kv.1) ≠ []) :
    update_task s tid kwargs = .error .storageFault := by
  unfold update_task
  rw [if_neg (by simpa using hne), hmiss]

theorem update_task_row (s : Store) (tid : Int) (kwargs : List (String × Value)) (task : Task)
    (hfind : get_task s tid = some task)
    (hne : (kwargs.filter fun kv => valid_fields.contains kv.1) ≠ []) :
    ∃ s', update_task s tid kwargs = .ok s' ∧
      s'.nextId = s.nextId ∧
      get_task s' tid =
        some (applyFields task (kwargs.filter fun kv => valid_fields.contains kv.1)) ∧
      (∀ u ∈ s.tasks, u.task_id ≠ tid → u ∈ s'.tasks) := by
  refine ⟨⟨replaceFirst (fun t => t.task_id = tid)
      (fun t => applyFields t (kwargs.filter fun kv => valid_fields.contains kv.1)) s.tasks,
      s.nextId⟩, ?_, rfl, ?_, ?_⟩
  · unfold update_task
    rw [if_neg (by simpa using hne), hfind]
  · exact find?_replaceFirst _ _
      (fun t ht => by simpa [applyFields_task_id] using ht)
      s.tasks task hfind
  · intro u hu hne'
    exact mem_replaceFirst_of_ne _ _ s.tasks u hu (decide_eq_false hne')

theorem create_task_wf (s : Store) (hwf : s.wf) (now : DateTime) (task_name : String)
    (jira_key notes : Option String) :
    (create_task s now task_name jira_key notes).1.wf := by
  intro t ht
  simp only [create_task, List.mem_append, List.mem_singleton] at ht
  rcases ht with ht | rfl
  · show t.task_id < s.nextId + 1
    have := hwf t ht
    omega
  · show s.nextId < s.nextId + 1
    omega

theorem get_task_create (s : Store) (hwf : s.wf) (now : DateTime) (task_name : String)
    (jira_key notes : Option String) :
    get_task (create_task s now task_name jira_key notes).1
        (create_task s now task_name jira_key notes).2 =
      some
        { task_id := s.nextId
          task_name := .vStr task_name
          start_time := .vNone
          end_time := .vNone
          duration := .vNone
          jira_key := optStr jira_key
          created_date := .vStr (isoformat now)
          task_id_required := .vNum 0
          synced := .vNum 0
          notes := optStr notes
          worklog_id := .vNone } := by
  unfold get_task create_task
  rw [List.find?_append]
  have h1 : s.tasks.find? (fun t => t.task_id = s.nextId) = none := by
    rw [List.find?_eq_none]
    intro t ht
    have := hwf t ht
    simp only [decide_eq_true_eq]
    omega
  rw [h1]
  simp [List.find?]

/-! ### Behaviour of the lifecycle operations -/

theorem isoformat_ne_empty (d : DateTime) : isoformat d ≠ "" := by
  intro h
  have hdata : (isoformat d).data = ("" : String).data := by rw [h]
  simp only [isoformat, isoChars, padDigits] at hdata
  simp at hdata

theorem truthy_iso (d : DateTime) : (Value.vStr (isoformat d)).truthy = true := by
  simp [Value.truthy, isoformat_ne_empty d]

theorem startOfTask_iso {st : DateTime} (hv : st.validb = true) :
    startOfTask (.vStr (isoformat st)) = .ok (some st) := by
  unfold startOfTask
  rw [if_pos (truthy_iso st)]
  simp [fromisoformat_isoformat st hv]

theorem calc_dt (a b : DateTime) :
    calculate_duration (.dt a) (.dt b) = .ok ((b.toSeconds - a.toSeconds) / 3600) := rfl

theorem applyFields_pause (t : Task) (v w : Value) :
    applyFields t [("end_time", v), ("duration", w)] =
      { t with end_time := v, duration := w } := rfl

theorem applyFields_resume (t : Task) (v w : Value) :
    applyFields t [("start_time", v), ("end_time", w)] =
      { t with start_time := v, end_time := w } := rfl

theorem applyFields_start (t : Task) (v : Value) :
    applyFields t [("start_time", v)] = { t with start_time := v } := rfl

theorem applyFields_duration (t : Task) (v : Value) :
    applyFields t [("duration", v)] = { t with duration := v } := rfl

theorem filter_pause_fields (v w : Value) :
    (([("end_time", v), ("duration", w)] : List (String × Value)).filter
      fun kv => valid_fields.contains kv.1) = [("end_time", v), ("duration", w)] := rfl

theorem filter_resume_fields (v w : Value) :
    (([("start_time", v), ("end_time", w)] : List (String × Value)).filter
      fun kv => valid_fields.contains kv.1) = [("start_time", v), ("end_time", w)] := rfl

theorem filter_start_fields (v : Value) :
    (([("start_time", v)] : List (String × Value)).filter
      fun kv => valid_fields.contains kv.1) = [("start_time", v)] := rfl

theorem filter_duration_fields (v : Value) :
    (([("duration", v)] : List (String × Value)).filter
      fun kv => valid_fields.contains kv.1) = [("duration", v)] := rfl

theorem pause_spec (s : Store) (now : DateTime) (tid : Int) (task : Task) (st : DateTime)
    (q : ℚ)
    (hfind : get_task s tid = some task)
    (hstart : task.start_time = .vStr (isoformat st))
    (hv : st.validb = true)
    (hq : task.duration.orZero = .ok q) :
    ∃ s', pause_task s now tid = .ok (s', q + (now.toSeconds - st.toSeconds) / 3600) ∧
      s'.nextId = s.nextId ∧
      get_task s' tid =
        some { task with
               end_time := .vStr (isoformat now)
               duration := .vNum (q + (now.toSeconds - st.toSeconds) / 3600) } ∧
      (∀ u ∈ s.tasks, u.task_id ≠ tid → u ∈ s'.tasks) := by
  obtain ⟨s', h1, h2, h3, h4⟩ := update_task_row s tid
    [("end_time", .vStr (isoformat now)),
     ("duration", .vNum (q + (now.toSeconds - st.toSeconds) / 3600))] task hfind
    (by rw [filter_pause_fields]; exact List.cons_ne_nil _ _)
  refine ⟨s', ?_, h2, ?_, h4⟩
  · unfold pause_task
    simp only [hfind, hstart, startOfTask_iso hv, bindOk, calc_dt, hq, h1]
  · rw [h3, filter_pause_fields, applyFields_pause]

theorem stop_spec (s : Store) (now : DateTime) (tid : Int) (task : Task) (st : DateTime)
    (q : ℚ)
    (hfind : get_task s tid = some task)
    (hstart : task.start_time = .vStr (isoformat st))
    (hv : st.validb = true)
    (hq : task.duration.orZero = .ok q) :
    ∃ s', stop_task s now tid = .ok (s', q + (now.toSeconds - st.toSeconds) / 3600) ∧
      s'.nextId = s.nextId ∧
      get_task s' tid =
        some { task with
               end_time := .vStr (isoformat now)
               duration := .vNum (q + (now.toSeconds - st.toSeconds) / 3600) } ∧
      (∀ u ∈ s.tasks, u.task_id ≠ tid → u ∈ s'.tasks) := by
  obtain ⟨s', h1, h2, h3, h4⟩ := update_task_row s tid
    [("end_time", .vStr (isoformat now)),
     ("duration", .vNum (q + (now.toSeconds - st.toSeconds) / 3600))] task hfind
    (by rw [filter_pause_fields]; exact List.cons_ne_nil _ _)
  refine ⟨s', ?_, h2, ?_, h4⟩
  · unfold stop_task
    simp only [hfind, hstart, startOfTask_iso hv, bindOk, calc_dt, hq, h1]
  · rw [h3, filter_pause_fields, applyFields_pause]

theorem resume_spec (s : Store) (now : DateTime) (tid : Int) (task : Task)
    (hfind : get_task s tid = some task) :
    ∃ s', resume_task s now tid = .ok s' ∧
      s'.nextId = s.nextId ∧
      get_task s' tid =
        some { task with
               start_time := .vStr (isoformat now)
               end_time := .vNone } ∧
      (∀ u ∈ s.tasks, u.task_id ≠ tid → u ∈ s'.tasks) := by
  obtain ⟨s', h1, h2, h3, h4⟩ := update_task_row s tid
    [("start_time", .vStr (isoformat now)), ("end_time", .vNone)] task hfind
    (by rw [filter_resume_fields]; exact List.cons_ne_nil _ _)
  refine ⟨s', ?_, h2, ?_, h4⟩
  · unfold resume_task
    simp only [hfind, h1]
  · rw [h3, filter_resume_fields, applyFields_resume]

theorem start_spec (s : Store) (hwf : s.wf) (nowCreate nowStart : DateTime)
    (task_name : String) (jira_key notes : Option String) :
    ∃ s1, start_task s nowCreate nowStart task_name jira_key notes = .ok (s1, s.nextId) ∧
      get_task s1 s.nextId =
        some
          { task_id := s.nextId
            task_name := .vStr task_name
            start_time := .vStr (isoformat nowStart)
            end_time := .vNone
            duration := .vNone
            jira_key := optStr jira_key
            created_date := .vStr (isoformat nowCreate)
            task_id_required := .vNum 0
            synced := .vNum 0
            notes := optStr notes
            worklog_id := .vNone } := by
  have hc := get_task_create s hwf nowCreate task_name jira_key notes
  obtain ⟨s1, h1, h2, h3, h4⟩ := update_task_row
    (create_task s nowCreate task_name jira_key notes).1
    s.nextId [("start_time", .vStr (isoformat nowStart))]
    { task_id := s.nextId
      task_name := .vStr task_name
      start_time := .vNone
      end_time := .vNone
      duration := .vNone
      jira_key := optStr jira_key
      created_date := .vStr (isoformat nowCreate)
      task_id_required := .vNum 0
      synced := .vNum 0
      notes := optStr notes
      worklog_id := .vNone }
    hc (by rw [filter_start_fields]; exact List.cons_ne_nil _ _)
  refine ⟨s1, ?_, ?_⟩
  · unfold start_task
    show Except.map (fun s2 => (s2, s.nextId))
      (update_task (create_task s nowCreate task_name jira_key notes).1 s.nextId
        [("start_time", Value.vStr (isoformat nowStart))]) = Except.ok (s1, s.nextId)
    rw [h1]
    rfl
  · rw [h3, filter_start_fields, applyFields_start]

/-! ### Pause/resume traces on one task

A trace is described by its sessions: the current session `(start, end)`
plus the later sessions.  `runSessions` drives the controller exactly as
the widget does: `pause` at the current session's end, `resume` at the
next session's start, …, and `stop` at the last session's end, collecting
every total the controller returns. -/

def runSessions (s : Store) (tid : Int) :
    DateTime × DateTime → List (DateTime × DateTime) → Except Err (Store × List ℚ)
  | (_, en), [] => (stop_task s en tid).map fun r => (r.1, [r.2])
  | (_, en), next :: rest => do
      let (s1, q) ← pause_task s en tid
      let s2 ← resume_task s1 next.1 tid
      let (s', qs) ← runSessions s2 tid next rest
      .ok (s', q :: qs)

/-- The sum of the session lengths, in hours. -/
def sessionsSum : List (DateTime × DateTime) → ℚ
  | [] => 0
  | (st, en) :: rest => (en.toSeconds - st.toSeconds) / 3600 + sessionsSum rest

/-- The totals the controller is expected to return: after each session
the previous total plus that session's length. -/
def runningTotals (base : ℚ) :
    DateTime × DateTime → List (DateTime × DateTime) → List ℚ
  | (st, en), [] => [base + (en.toSeconds - st.toSeconds) / 3600]
  | (st, en), next :: rest =>
      (base + (en.toSeconds - st.toSeconds) / 3600) ::
        runningTotals (base + (en.toSeconds - st.toSeconds) / 3600) next rest

theorem runSessions_spec :
    ∀ (rest : List (DateTime × DateTime)) (s : Store) (tid : Int) (task : Task)
      (st en : DateTime) (q : ℚ),
      get_task s tid = some task →
      task.start_time = .vStr (isoformat st) →
      st.validb = true →
      (∀ p ∈ rest, p.1.validb = true) →
      task.duration.orZero = .ok q →
      ∃ s' task',
        runSessions s tid (st, en) rest = .ok (s', runningTotals q (st, en) rest) ∧
        get_task s' tid = some task' ∧
        task'.duration = .vNum (q + sessionsSum ((st, en) :: rest)) := by
  intro rest
  induction rest with
  | nil =>
      intro s tid task st en q hfind hstart hv _ hq
      obtain ⟨s', h1, _, h3, _⟩ := stop_spec s en tid task st q hfind hstart hv hq
      refine ⟨s', _, ?_, h3, ?_⟩
      · show (stop_task s en tid).map (fun r => (r.1, [r.2])) = _
        rw [h1]
        show Except.ok (s', [q + (en.toSeconds - st.toSeconds) / 3600]) = _
        rw [show runningTotals q (st, en) [] =
          [q + (en.toSeconds - st.toSeconds) / 3600] from rfl]
      · show Value.vNum (q + (en.toSeconds - st.toSeconds) / 3600) = _
        rw [show sessionsSum [(st, en)] =
          (en.toSeconds - st.toSeconds) / 3600 + 0 from rfl]
        ring_nf
  | cons next rest ih =>
      intro s tid task st en q hfind hstart hv hvrest hq
      obtain ⟨s1, hp1, _, hp3, _⟩ := pause_spec s en tid task st q hfind hstart hv hq
      obtain ⟨s2, hr1, _, hr3, _⟩ := resume_spec s1 next.1 tid _ hp3
      have hnextv : next.1.validb = true := hvrest next (List.mem_cons_self _ _)
      have hrestv : ∀ p ∈ rest, p.1.validb = true :=
        fun p hp => hvrest p (List.mem_cons_of_mem _ hp)
      obtain ⟨s', task', hs1, hs2, hs3⟩ := ih s2 tid _ next.1 next.2
        (q + (en.toSeconds - st.toSeconds) / 3600) hr3 rfl hnextv hrestv rfl
      refine ⟨s', task', ?_, hs2, ?_⟩
      · show (do
          let r ← pause_task s en tid
          let s2 ← resume_task r.1 next.1 tid
          let r' ← runSessions s2 tid next rest
          Except.ok (r'.1, r.2 :: r'.2)) = _
        rw [hp1, bindOk]
        show (do
          let s2 ← resume_task s1 next.1 tid
          let r' ← runSessions s2 tid next rest
          Except.ok (r'.1, (q + (en.toSeconds - st.toSeconds) / 3600) :: r'.2)) = _
        rw [hr1, bindOk]
        rw [show (next.1, next.2) = next from rfl] at hs1
        rw [hs1, bindOk]
        show Except.ok (s', (q + (en.toSeconds - st.toSeconds) / 3600) ::
          runningTotals (q + (en.toSeconds - st.toSeconds) / 3600) next rest) = _
        rw [show runningTotals q (st, en) (next :: rest) =
          (q + (en.toSeconds - st.toSeconds) / 3600) ::
            runningTotals (q + (en.toSeconds - st.toSeconds) / 3600) next rest from rfl]
      · rw [hs3]
        rw [show sessionsSum ((st, en) :: next :: rest) =
          (en.toSeconds - st.toSeconds) / 3600 + sessionsSum (next :: rest) from rfl]
        congr 1
        ring

/-! ### Date-prefix precision -/

/-- The field ranges Python's `date` constructor enforces (every value the
date selector can produce satisfies them). -/
def PyDate.validb (d : PyDate) : Bool :=
  1 ≤ d.year && d.year ≤ 9999 && 1 ≤ d.month && d.month ≤ 12
    && 1 ≤ d.day && d.day ≤ daysInMonth d.year d.month

theorem daysInMonth_le (y m : Nat) : daysInMonth y m ≤ 31 := by
  unfold daysInMonth
  split <;> [split <;> omega; split <;> omega]

theorem length_dateIsoChars (d : PyDate) : (dateIsoChars d).length = 10 := by
  simp [dateIsoChars, length_padDigits]

theorem isoChars_decomp (dt : DateTime) :
    isoChars dt = dateIsoChars dt.date ++
      ('T' :: (padDigits 2 dt.hour ++ (':' :: (padDigits 2 dt.minute ++
        (':' :: (padDigits 2 dt.second ++
          (if dt.usec = 0 then [] else '.' :: padDigits 6 dt.usec))))))) := by
  simp [isoChars, dateIsoChars, DateTime.date, List.append_assoc]

theorem dateIsoChars_inj {a b : PyDate} (ha : a.validb = true) (hb : b.validb = true)
    (h : dateIsoChars a = dateIsoChars b) : a = b := by
  obtain ⟨ya, ma, da⟩ := a
  obtain ⟨yb, mb, db⟩ := b
  simp only [PyDate.validb, Bool.and_eq_true, decide_eq_true_eq] at ha hb
  obtain ⟨⟨⟨⟨⟨hya1, hya2⟩, hma1⟩, hma2⟩, hda1⟩, hda2⟩ := ha
  obtain ⟨⟨⟨⟨⟨hyb1, hyb2⟩, hmb1⟩, hmb2⟩, hdb1⟩, hdb2⟩ := hb
  have hya : ya < 10 ^ 4 := by omega
  have hyb : yb < 10 ^ 4 := by omega
  have hma : ma < 10 ^ 2 := by omega
  have hmb : mb < 10 ^ 2 := by omega
  have hda' : da < 10 ^ 2 := by have := daysInMonth_le ya ma; omega
  have hdb' : db < 10 ^ 2 := by have := daysInMonth_le yb mb; omega
  simp only [dateIsoChars] at h
  obtain ⟨h1, h2⟩ := List.append_inj h (by simp [length_padDigits])
  obtain ⟨h3, h4⟩ := List.cons.inj h2
  obtain ⟨h5, h6⟩ := List.append_inj h4 (by simp [length_padDigits])
  obtain ⟨h7, h8⟩ := List.cons.inj h6
  have ey := padDigits_inj hya hyb h1
  have em := padDigits_inj hma hmb h5
  have ed := padDigits_inj hda' hdb' h8
  simp [ey, em, ed]

theorem likePrefix_iso {d : PyDate} (dt : DateTime)
    (hd : d.validb = true) (hdate : dt.date.validb = true) :
    (likePrefix (dateIsoChars d) (.vStr (isoformat dt)) = true ↔ dt.date = d) := by
  show (dateIsoChars d).isPrefixOf (isoChars dt) = true ↔ dt.date = d
  rw [List.isPrefixOf_iff_prefix]
  constructor
  · intro hpre
    rw [isoChars_decomp] at hpre
    have htake := List.prefix_iff_eq_take.mp hpre
    rw [length_dateIsoChars] at htake
    rw [List.take_left' (length_dateIsoChars dt.date)] at htake
    exact (dateIsoChars_inj hdate hd htake.symm)
  · intro hde
    rw [isoChars_decomp, ← hde]
    exact List.prefix_append _ _

/-- For a valid instant, its calendar date is a valid `PyDate`. -/
theorem date_validb (dt : DateTime) (h : dt.validb = true) : dt.date.validb = true := by
  obtain ⟨y, mo, da, ho, mi, se, u⟩ := dt
  simp only [DateTime.validb, Bool.and_eq_true, decide_eq_true_eq] at h
  simp only [DateTime.date, PyDate.validb, Bool.and_eq_true, decide_eq_true_eq]
  exact ⟨⟨⟨⟨⟨h.1.1.1.1.1.1.1.1.1, h.1.1.1.1.1.1.1.1.2⟩, h.1.1.1.1.1.1.1.2⟩,
    h.1.1.1.1.1.1.2⟩, h.1.1.1.1.1.2⟩, h.1.1.1.1.2⟩

instance {e a : Type} [DecidableEq e] [DecidableEq a] : DecidableEq (Except e a)
  | .error x, .error y =>
      if h : x = y then .isTrue (h ▸ rfl) else .isFalse fun hc => h (Except.error.inj hc)
  | .ok x, .ok y =>
      if h : x = y then .isTrue (h ▸ rfl) else .isFalse fun hc => h (Except.ok.inj hc)
  | .error _, .ok _ => .isFalse fun hc => Except.noConfusion hc
  | .ok _, .error _ => .isFalse fun hc => Except.noConfusion hc

theorem startOfTask_falsy {v : Value} (h : v.truthy = false) : startOfTask v = .ok none := by
  simp [startOfTask, h]

/-! ### The claims -/

/-- C2: for every existing task whose `start_time` cell is unset (NULL or
empty, hence falsy), `pause` and `stop` fail with the
`InvalidStateError`-kind error ("task hasn't been started").  The code
raises before calling `update_task`, so no write happens and the row is
unchanged — in this embedding an error result carries no new store. -/
theorem claim_C2_pause_stop_unstarted (s : Store) (now : DateTime) (tid : Int) (task : Task)
    (hfind : get_task s tid = some task)
    (hstart : task.start_time.truthy = false) :
    pause_task s now tid = .error .invalidState ∧
    stop_task s now tid = .error .invalidState := by
  have hso := startOfTask_falsy hstart
  constructor
  · unfold pause_task
    simp only [hfind, hso, bindOk]
  · unfold stop_task
    simp only [hfind, hso, bindOk]

/-- Witness for C2: Scenario A — a freshly created, never started task;
`pause` (and `stop`) fail with the invalid-state error. -/
theorem claim_C2_witness :
    pause_task ⟨[⟨1, .vStr "Write report", .vNone, .vNone, .vNone, .vNone,
        .vStr "2024-01-01T09:00:00", .vNum 0, .vNum 0, .vNone, .vNone⟩], 2⟩
      ⟨2024, 1, 1, 9, 30, 0, 0⟩ 1 = .error .invalidState ∧
    stop_task ⟨[⟨1, .vStr "Write report", .vNone, .vNone, .vNone, .vNone,
        .vStr "2024-01-01T09:00:00", .vNum 0, .vNum 0, .vNone, .vNone⟩], 2⟩
      ⟨2024, 1, 1, 9, 30, 0, 0⟩ 1 = .error .invalidState :=
  claim_C2_pause_stop_unstarted _ _ 1
    ⟨1, .vStr "Write report", .vNone, .vNone, .vNone, .vNone,
      .vStr "2024-01-01T09:00:00", .vNum 0, .vNum 0, .vNone, .vNone⟩
    (by decide) (by decide)

/-- C3 counterexample: the claim says the controller never treats a task
without `start_time` as resumable, but `resume_task` checks only that the
row exists: on a concrete never-started task it succeeds and sets
`start_time`, i.e. the task becomes Running. -/
theorem claim_C3_counterexample :
    resume_task ⟨[⟨1, .vStr "Write report", .vNone, .vNone, .vNone, .vNone,
        .vStr "2024-01-01T09:00:00", .vNum 0, .vNum 0, .vNone, .vNone⟩], 2⟩
      ⟨2024, 1, 1, 9, 30, 0, 0⟩ 1 =
      .ok ⟨[⟨1, .vStr "Write report", .vStr "2024-01-01T09:30:00", .vNone, .vNone, .vNone,
        .vStr "2024-01-01T09:00:00", .vNum 0, .vNum 0, .vNone, .vNone⟩], 2⟩ := rfl

/-- C3 (amended): `resume_task` requires only that the task exists — it
fails with the `NotFoundError`-kind error on a missing id, and on every
existing task (started or not) it succeeds, setting `start_time = now`
and clearing `end_time` while leaving `duration` untouched.  A
never-started task is therefore resumable. -/
theorem claim_C3_resume_requires_existence_only (s : Store) (now : DateTime) (tid : Int) :
    (get_task s tid = none → resume_task s now tid = .error .notFound) ∧
    ∀ task, get_task s tid = some task →
      ∃ s', resume_task s now tid = .ok s' ∧
        ∃ task', get_task s' tid = some task' ∧
          task'.start_time = .vStr (isoformat now) ∧
          task'.end_time = .vNone ∧
          task'.duration = task.duration := by
  constructor
  · intro h
    unfold resume_task
    rw [h]
  · intro task hfind
    obtain ⟨s', h1, _, h3, _⟩ := resume_spec s now tid task hfind
    exact ⟨s', h1, _, h3, rfl, rfl, rfl⟩

/-- Witness for C3 (amended): on a missing id resume reports not-found; on
a concrete never-started task it succeeds and starts the task. -/
theorem claim_C3_witness :
    resume_task ⟨[], 1⟩ ⟨2024, 1, 1, 9, 30, 0, 0⟩ 5 = .error .notFound ∧
    ∃ s', resume_task ⟨[⟨1, .vStr "Write report", .vNone, .vNone, .vNone, .vNone,
        .vStr "2024-01-01T09:00:00", .vNum 0, .vNum 0, .vNone, .vNone⟩], 2⟩
      ⟨2024, 1, 1, 9, 30, 0, 0⟩ 1 = .ok s' ∧
      ∃ task', get_task s' 1 = some task' ∧
        task'.start_time = .vStr (isoformat ⟨2024, 1, 1, 9, 30, 0, 0⟩) ∧
        task'.end_time = .vNone ∧
        task'.duration = .vNone :=
  ⟨(claim_C3_resume_requires_existence_only ⟨[], 1⟩ _ 5).1 (by decide),
   (claim_C3_resume_requires_existence_only _ _ 1).2
     ⟨1, .vStr "Write report", .vNone, .vNone, .vNone, .vNone,
       .vStr "2024-01-01T09:00:00", .vNum 0, .vNum 0, .vNone, .vNone⟩
     (by decide)⟩

/-- C5: updating a task id that does not exist, with a field map that
still contains at least one whitelisted field, fails with the
`StorageError`-kind error (Python's `setattr(None, …)` raises before any
commit), creates no row and changes nothing — in this embedding the error
result carries no new store. -/
theorem claim_C5_update_missing_id (s : Store) (tid : Int) (kwargs : List (String × Value))
    (hmiss : get_task s tid = none)
    (hne : (kwargs.filter fun kv => valid_fields.contains kv.1) ≠ []) :
    update_task s tid kwargs = .error .storageFault :=
  update_task_missing s tid kwargs hmiss hne

/-- Witness for C5: a whitelisted update of a task id absent from an empty
store fails with the storage error. -/
theorem claim_C5_witness :
    update_task ⟨[], 1⟩ 5 [("duration", .vNum 1)] = .error .storageFault :=
  claim_C5_update_missing_id ⟨[], 1⟩ 5 _ (by decide) (by decide)

/-- C7: bulk delete removes exactly the present rows whose id is in the
given set, keeps every other row (in order), and is total — ids that do
not exist are silently skipped, no error arises. -/
theorem claim_C7_bulk_delete (s : Store) (ids : List Int) :
    (∀ t, t ∈ (delete_tasks s ids).tasks ↔ t ∈ s.tasks ∧ t.task_id ∉ ids) ∧
    (delete_tasks s ids).tasks.Sublist s.tasks ∧
    (delete_tasks s ids).nextId = s.nextId := by
  refine ⟨?_, List.filter_sublist _, rfl⟩
  intro t
  simp only [delete_tasks, List.mem_filter, Bool.not_eq_true']
  constructor
  · rintro ⟨h1, h2⟩
    refine ⟨h1, fun hmem => ?_⟩
    have hc : ids.contains t.task_id = true := List.elem_iff.mpr hmem
    rw [hc] at h2
    cases h2
  · rintro ⟨h1, h2⟩
    refine ⟨h1, ?_⟩
    cases hc : ids.contains t.task_id
    · rfl
    · exact absurd (List.elem_iff.mp hc) h2

theorem truthy_iso_input (d : DateTime) : (TimeInput.str (isoformat d)).truthy = true := by
  simp [TimeInput.truthy, isoformat_ne_empty d]

theorem toDT_dt (d : DateTime) : toDT (.dt d) = .ok d := rfl

theorem toDT_iso {d : DateTime} (hv : d.validb = true) :
    toDT (.str (isoformat d)) = .ok d := by
  show (match fromisoformat (isoformat d) with
    | some d => Except.ok d
    | none => Except.error Err.parseFail) = Except.ok d
  rw [fromisoformat_isoformat d hv]

theorem toDT_str (S : String) (d : DateTime) (h : fromisoformat S = some d) :
    toDT (.str S) = .ok d := by
  show (match fromisoformat S with
    | some d => Except.ok d
    | none => Except.error Err.parseFail) = _
  rw [h]

theorem calc_str_str (A B : String) (a b : DateTime)
    (ha : fromisoformat A = some a) (hb : fromisoformat B = some b)
    (hA : (TimeInput.str A).truthy = true) (hB : (TimeInput.str B).truthy = true) :
    calculate_duration (.str A) (.str B) = .ok ((b.toSeconds - a.toSeconds) / 3600) := by
  unfold calculate_duration
  rw [hA, hB]
  show (do
    let x ← toDT (.str A)
    let y ← toDT (.str B)
    Except.ok ((y.toSeconds - x.toSeconds) / 3600)) = _
  rw [toDT_str A a ha, bindOk, toDT_str B b hb, bindOk]

theorem toSeconds_eval (y mo da h mi s u o : Nat)
    (ho : (⟨y, mo, da, h, mi, s, u⟩ : DateTime).toordinal = o) :
    (⟨y, mo, da, h, mi, s, u⟩ : DateTime).toSeconds =
      (o : ℚ) * 86400 + (h : ℚ) * 3600 + (mi : ℚ) * 60 + (s : ℚ) + (u : ℚ) / 1000000 := by
  unfold DateTime.toSeconds
  rw [ho]

/-- C8: the shared duration computation returns `(end − start)` in seconds
divided by 3600, and gives the same value whether each endpoint is a
timestamp or its canonical ISO text, because parsing the canonical text is
a lossless round-trip. -/
theorem claim_C8_duration_computation (s e : DateTime)
    (hs : s.validb = true) (he : e.validb = true) :
    calculate_duration (.dt s) (.dt e) = .ok ((e.toSeconds - s.toSeconds) / 3600) ∧
    calculate_duration (.str (isoformat s)) (.str (isoformat e)) =
      .ok ((e.toSeconds - s.toSeconds) / 3600) ∧
    calculate_duration (.str (isoformat s)) (.dt e) =
      .ok ((e.toSeconds - s.toSeconds) / 3600) ∧
    calculate_duration (.dt s) (.str (isoformat e)) =
      .ok ((e.toSeconds - s.toSeconds) / 3600) ∧
    fromisoformat (isoformat s) = some s := by
  refine ⟨calc_dt s e, ?_, ?_, ?_, fromisoformat_isoformat s hs⟩
  · unfold calculate_duration
    rw [truthy_iso_input, truthy_iso_input]
    show (do
      let a ← toDT (.str (isoformat s))
      let b ← toDT (.str (isoformat e))
      Except.ok ((b.toSeconds - a.toSeconds) / 3600)) = _
    rw [toDT_iso hs, bindOk, toDT_iso he, bindOk]
  · unfold calculate_duration
    rw [truthy_iso_input]
    show (do
      let a ← toDT (.str (isoformat s))
      let b ← toDT (.dt e)
      Except.ok ((b.toSeconds - a.toSeconds) / 3600)) = _
    rw [toDT_iso hs, bindOk, toDT_dt, bindOk]
  · unfold calculate_duration
    rw [truthy_iso_input]
    show (do
      let a ← toDT (.dt s)
      let b ← toDT (.str (isoformat e))
      Except.ok ((b.toSeconds - a.toSeconds) / 3600)) = _
    rw [toDT_dt, bindOk, toDT_iso he, bindOk]

/-- Witness for C8: both encodings of two concrete instants half an hour
apart give duration one half. -/
theorem claim_C8_witness :
    calculate_duration (.dt ⟨2024, 1, 1, 9, 0, 0, 0⟩) (.dt ⟨2024, 1, 1, 9, 30, 0, 0⟩) =
      .ok ((DateTime.toSeconds ⟨2024, 1, 1, 9, 30, 0, 0⟩ -
        DateTime.toSeconds ⟨2024, 1, 1, 9, 0, 0, 0⟩) / 3600) ∧
    calculate_duration (.str (isoformat ⟨2024, 1, 1, 9, 0, 0, 0⟩))
        (.str (isoformat ⟨2024, 1, 1, 9, 30, 0, 0⟩)) =
      .ok ((DateTime.toSeconds ⟨2024, 1, 1, 9, 30, 0, 0⟩ -
        DateTime.toSeconds ⟨2024, 1, 1, 9, 0, 0, 0⟩) / 3600) ∧
    calculate_duration (.str (isoformat ⟨2024, 1, 1, 9, 0, 0, 0⟩))
        (.dt ⟨2024, 1, 1, 9, 30, 0, 0⟩) =
      .ok ((DateTime.toSeconds ⟨2024, 1, 1, 9, 30, 0, 0⟩ -
        DateTime.toSeconds ⟨2024, 1, 1, 9, 0, 0, 0⟩) / 3600) ∧
    calculate_duration (.dt ⟨2024, 1, 1, 9, 0, 0, 0⟩)
        (.str (isoformat ⟨2024, 1, 1, 9, 30, 0, 0⟩)) =
      .ok ((DateTime.toSeconds ⟨2024, 1, 1, 9, 30, 0, 0⟩ -
        DateTime.toSeconds ⟨2024, 1, 1, 9, 0, 0, 0⟩) / 3600) ∧
    fromisoformat (isoformat ⟨2024, 1, 1, 9, 0, 0, 0⟩) = some ⟨2024, 1, 1, 9, 0, 0, 0⟩ :=
  claim_C8_duration_computation _ _ (by decide) (by decide)

/-- C10: when either endpoint is absent (`None` or the empty string) the
shared duration computation returns `0.0` instead of raising; and a task
whose stored `duration` cell is NULL is treated as having accumulated zero
hours: the first `pause`/`stop` returns exactly the session's length. -/
theorem claim_C10_absent_endpoints (x : TimeInput) (s : Store) (now : DateTime) (tid : Int)
    (task : Task) (st : DateTime)
    (hfind : get_task s tid = some task)
    (hdur : task.duration = .vNone)
    (hstart : task.start_time = .vStr (isoformat st))
    (hv : st.validb = true) :
    calculate_duration .noneV x = .ok 0 ∧
    calculate_duration x .noneV = .ok 0 ∧
    calculate_duration (.str "") x = .ok 0 ∧
    calculate_duration x (.str "") = .ok 0 ∧
    (∃ s', pause_task s now tid = .ok (s', (now.toSeconds - st.toSeconds) / 3600)) ∧
    (∃ s', stop_task s now tid = .ok (s', (now.toSeconds - st.toSeconds) / 3600)) := by
  have hq : task.duration.orZero = .ok 0 := by rw [hdur]; rfl
  obtain ⟨s1, hp, _, _, _⟩ := pause_spec s now tid task st 0 hfind hstart hv hq
  obtain ⟨s2, hst, _, _, _⟩ := stop_spec s now tid task st 0 hfind hstart hv hq
  rw [zero_add] at hp hst
  refine ⟨?_, ?_, ?_, ?_, ⟨s1, hp⟩, ⟨s2, hst⟩⟩
  all_goals simp [calculate_duration, TimeInput.truthy]

/-- Witness for C10: a task with NULL duration paused half an hour after
its start returns exactly half an hour; the degenerate endpoint cases give
zero. -/
theorem claim_C10_witness :
    calculate_duration .noneV (.dt ⟨2024, 1, 1, 9, 0, 0, 0⟩) = .ok 0 ∧
    calculate_duration (.dt ⟨2024, 1, 1, 9, 0, 0, 0⟩) .noneV = .ok 0 ∧
    calculate_duration (.str "") (.dt ⟨2024, 1, 1, 9, 0, 0, 0⟩) = .ok 0 ∧
    calculate_duration (.dt ⟨2024, 1, 1, 9, 0, 0, 0⟩) (.str "") = .ok 0 ∧
    (∃ s', pause_task ⟨[⟨1, .vStr "Fix bug", .vStr (isoformat ⟨2024, 1, 1, 9, 0, 0, 0⟩),
        .vNone, .vNone, .vStr "PROJ-1", .vStr "2024-01-01T09:00:00", .vNum 0, .vNum 0,
        .vNone, .vNone⟩], 2⟩ ⟨2024, 1, 1, 9, 30, 0, 0⟩ 1 =
      .ok (s', (DateTime.toSeconds ⟨2024, 1, 1, 9, 30, 0, 0⟩ -
        DateTime.toSeconds ⟨2024, 1, 1, 9, 0, 0, 0⟩) / 3600)) ∧
    (∃ s', stop_task ⟨[⟨1, .vStr "Fix bug", .vStr (isoformat ⟨2024, 1, 1, 9, 0, 0, 0⟩),
        .vNone, .vNone, .vStr "PROJ-1", .vStr "2024-01-01T09:00:00", .vNum 0, .vNum 0,
        .vNone, .vNone⟩], 2⟩ ⟨2024, 1, 1, 9, 30, 0, 0⟩ 1 =
      .ok (s', (DateTime.toSeconds ⟨2024, 1, 1, 9, 30, 0, 0⟩ -
        DateTime.toSeconds ⟨2024, 1, 1, 9, 0, 0, 0⟩) / 3600)) :=
  claim_C10_absent_endpoints _ _ _ 1
    ⟨1, .vStr "Fix bug", .vStr (isoformat ⟨2024, 1, 1, 9, 0, 0, 0⟩), .vNone, .vNone,
      .vStr "PROJ-1", .vStr "2024-01-01T09:00:00", .vNum 0, .vNum 0, .vNone, .vNone⟩
    ⟨2024, 1, 1, 9, 0, 0, 0⟩ (by decide) (by decide) (by decide) (by decide)

/-- C4: for an existing row, `update_task` succeeds and writes exactly the
supplied whitelisted fields — every column ends up holding the last
whitelisted supplied value for it, or its previous value; ids and other
rows are untouched; and when no supplied field is whitelisted the call is
a no-op without error. -/
theorem claim_C4_update_whitelist (s : Store) (tid : Int) (kwargs : List (String × Value))
    (task : Task) (hfind : get_task s tid = some task) :
    ∃ s', update_task s tid kwargs = .ok s' ∧
      s'.nextId = s.nextId ∧
      (∀ u ∈ s.tasks, u.task_id ≠ tid → u ∈ s'.tasks) ∧
      (∃ task', get_task s' tid = some task' ∧
        ∀ f : Field, task'.get f = appliedValue kwargs f (task.get f)) ∧
      ((kwargs.filter fun kv => valid_fields.contains kv.1) = [] → s' = s) := by
  by_cases he : (kwargs.filter fun kv => valid_fields.contains kv.1) = []
  · refine ⟨s, update_task_noop s tid kwargs he, rfl, fun u hu _ => hu,
      ⟨task, hfind, fun f => ?_⟩, fun _ => rfl⟩
    unfold appliedValue
    rw [he]
    rfl
  · obtain ⟨s', h1, h2, h3, h4⟩ := update_task_row s tid kwargs task hfind he
    have hf : ∀ kv ∈ (kwargs.filter fun kv => valid_fields.contains kv.1),
        kv.1 ∈ valid_fields := by
      intro kv hkv
      rw [List.mem_filter] at hkv
      exact List.elem_iff.mp hkv.2
    refine ⟨s', h1, h2, h4, ⟨_, h3, fun f => ?_⟩, fun h => absurd h he⟩
    rw [get_applyFields _ _ _ hf]
    rfl

/-- Witness for C4: Scenario D — an update supplying `duration = 5/2` and
an unknown `bogus_field` persists only the duration; name, start and the
rest keep their values. -/
theorem claim_C4_witness :
    ∃ s', update_task ⟨[⟨1, .vStr "Write report", .vStr "2024-01-01T09:00:00", .vNone,
        .vNum 1, .vNone, .vStr "2024-01-01T08:00:00", .vNum 0, .vNum 0, .vNone, .vNone⟩], 2⟩
        1 [("duration", .vNum (5/2)), ("bogus_field", .vStr "x")] = .ok s' ∧
      s'.nextId = 2 ∧
      (∀ u ∈ ([⟨1, .vStr "Write report", .vStr "2024-01-01T09:00:00", .vNone,
        .vNum 1, .vNone, .vStr "2024-01-01T08:00:00", .vNum 0, .vNum 0, .vNone,
        .vNone⟩] : List Task), u.task_id ≠ 1 → u ∈ s'.tasks) ∧
      (∃ task', get_task s' 1 = some task' ∧
        ∀ f : Field, task'.get f =
          appliedValue [("duration", .vNum (5/2)), ("bogus_field", .vStr "x")] f
            ((⟨1, .vStr "Write report", .vStr "2024-01-01T09:00:00", .vNone,
              .vNum 1, .vNone, .vStr "2024-01-01T08:00:00", .vNum 0, .vNum 0, .vNone,
              .vNone⟩ : Task).get f)) ∧
      ((([("duration", Value.vNum (5/2)), ("bogus_field", Value.vStr "x")]).filter
        fun kv => valid_fields.contains kv.1) = [] →
          s' = ⟨[⟨1, .vStr "Write report", .vStr "2024-01-01T09:00:00", .vNone,
            .vNum 1, .vNone, .vStr "2024-01-01T08:00:00", .vNum 0, .vNum 0, .vNone,
            .vNone⟩], 2⟩) :=
  claim_C4_update_whitelist _ 1 _
    ⟨1, .vStr "Write report", .vStr "2024-01-01T09:00:00", .vNone,
      .vNum 1, .vNone, .vStr "2024-01-01T08:00:00", .vNum 0, .vNum 0, .vNone, .vNone⟩
    (by decide)

/-- C6: the date query returns exactly the rows whose textual
`created_date` begins with the requested date's ISO form, in descending id
order; for validly stamped rows that prefix test holds exactly when the
row was created on that calendar day (adjacent days are excluded); and the
"today" query is the same operation applied to the current date. -/
theorem claim_C6_date_filter (s : Store) (d : PyDate) (hd : d.validb = true) :
    (∀ t, t ∈ get_tasks_for_date s d ↔
      t ∈ s.tasks ∧ likePrefix (dateIsoChars d) t.created_date = true) ∧
    (get_tasks_for_date s d).Pairwise (fun a b => b.task_id ≤ a.task_id) ∧
    (∀ dt : DateTime, dt.validb = true →
      (likePrefix (dateIsoChars d) (.vStr (isoformat dt)) = true ↔ dt.date = d)) ∧
    (∀ now : DateTime, get_tasks_for_today s now = get_tasks_for_date s now.date) := by
  refine ⟨?_, ?_, ?_, fun _ => rfl⟩
  · intro t
    unfold get_tasks_for_date
    rw [List.mem_mergeSort]
    exact List.mem_filter
  · unfold get_tasks_for_date
    have htrans : ∀ a b c : Task, byIdDesc a b → byIdDesc b c → byIdDesc a c := by
      intro a b c hab hbc
      simp only [byIdDesc, decide_eq_true_eq] at *
      omega
    have htotal : ∀ a b : Task, byIdDesc a b || byIdDesc b a := by
      intro a b
      simp only [byIdDesc, Bool.or_eq_true, decide_eq_true_eq]
      omega
    have hp := List.sorted_mergeSort htrans htotal
      (s.tasks.filter fun t => likePrefix (dateIsoChars d) t.created_date)
    exact hp.imp fun hab => by simpa [byIdDesc] using hab
  · intro dt hdt
    exact likePrefix_iso dt hd (date_validb dt hdt)

/-- Witness for C6: Scenario C — of two tasks created on consecutive days,
the query for the first day returns exactly the first task, and its
created-date prefix test distinguishes the two days. -/
theorem claim_C6_witness :
    (∀ t, t ∈ get_tasks_for_date
        ⟨[⟨1, .vStr "a", .vNone, .vNone, .vNone, .vNone,
            .vStr "2024-01-01T09:00:00", .vNum 0, .vNum 0, .vNone, .vNone⟩,
          ⟨2, .vStr "b", .vNone, .vNone, .vNone, .vNone,
            .vStr "2024-01-02T09:00:00", .vNum 0, .vNum 0, .vNone, .vNone⟩], 3⟩
        ⟨2024, 1, 1⟩ ↔
      t ∈ [⟨1, .vStr "a", .vNone, .vNone, .vNone, .vNone,
            .vStr "2024-01-01T09:00:00", .vNum 0, .vNum 0, .vNone, .vNone⟩,
          ⟨2, .vStr "b", .vNone, .vNone, .vNone, .vNone,
            .vStr "2024-01-02T09:00:00", .vNum 0, .vNum 0, .vNone, .vNone⟩] ∧
        likePrefix (dateIsoChars ⟨2024, 1, 1⟩) t.created_date = true) ∧
    (get_tasks_for_date
        ⟨[⟨1, .vStr "a", .vNone, .vNone, .vNone, .vNone,
            .vStr "2024-01-01T09:00:00", .vNum 0, .vNum 0, .vNone, .vNone⟩,
          ⟨2, .vStr "b", .vNone, .vNone, .vNone, .vNone,
            .vStr "2024-01-02T09:00:00", .vNum 0, .vNum 0, .vNone, .vNone⟩], 3⟩
        ⟨2024, 1, 1⟩).Pairwise (fun a b => b.task_id ≤ a.task_id) ∧
    (∀ dt : DateTime, dt.validb = true →
      (likePrefix (dateIsoChars ⟨2024, 1, 1⟩) (.vStr (isoformat dt)) = true ↔
        dt.date = ⟨2024, 1, 1⟩)) ∧
    (∀ now : DateTime,
      get_tasks_for_today
        ⟨[⟨1, .vStr "a", .vNone, .vNone, .vNone, .vNone,
            .vStr "2024-01-01T09:00:00", .vNum 0, .vNum 0, .vNone, .vNone⟩,
          ⟨2, .vStr "b", .vNone, .vNone, .vNone, .vNone,
            .vStr "2024-01-02T09:00:00", .vNum 0, .vNum 0, .vNone, .vNone⟩], 3⟩ now =
      get_tasks_for_date
        ⟨[⟨1, .vStr "a", .vNone, .vNone, .vNone, .vNone,
            .vStr "2024-01-01T09:00:00", .vNum 0, .vNum 0, .vNone, .vNone⟩,
          ⟨2, .vStr "b", .vNone, .vNone, .vNone, .vNone,
            .vStr "2024-01-02T09:00:00", .vNum 0, .vNum 0, .vNone, .vNone⟩], 3⟩ now.date) :=
  claim_C6_date_filter _ ⟨2024, 1, 1⟩ (by decide)

/-- C9 counterexample: the claim asserts the manual recompute replaces the
stored duration with an arbitrary *non-negative* value, but the recompute
does not clamp: with end before start it stores the negative value `-1`. -/
theorem claim_C9_counterexample :
    (∃ s', recalcRow ⟨[⟨1, .vStr "a", .vStr "2024-01-01T10:00:00",
        .vStr "2024-01-01T09:00:00", .vNum 5, .vNone, .vStr "2024-01-01T08:00:00",
        .vNum 0, .vNum 0, .vNone, .vNone⟩], 2⟩
        1 "2024-01-01T10:00:00" "2024-01-01T09:00:00" = .ok s' ∧
      (get_task s' 1).map Task.duration = some (.vNum (-1))) ∧
    ((-1 : ℚ) < 0) := by
  have hval : (DateTime.toSeconds ⟨2024, 1, 1, 9, 0, 0, 0⟩ -
      DateTime.toSeconds ⟨2024, 1, 1, 10, 0, 0, 0⟩) / 3600 = -1 := by
    rw [toSeconds_eval 2024 1 1 9 0 0 0 738886 (by decide),
      toSeconds_eval 2024 1 1 10 0 0 0 738886 (by decide)]
    norm_num
  have hcalc := calc_str_str "2024-01-01T10:00:00" "2024-01-01T09:00:00"
    ⟨2024, 1, 1, 10, 0, 0, 0⟩ ⟨2024, 1, 1, 9, 0, 0, 0⟩
    (by decide) (by decide) (by decide) (by decide)
  rw [hval] at hcalc
  obtain ⟨s', h1, _, h3, _⟩ := update_task_row
    ⟨[⟨1, .vStr "a", .vStr "2024-01-01T10:00:00", .vStr "2024-01-01T09:00:00",
      .vNum 5, .vNone, .vStr "2024-01-01T08:00:00", .vNum 0, .vNum 0, .vNone,
      .vNone⟩], 2⟩ 1 [("duration", Value.vNum (-1))]
    ⟨1, .vStr "a", .vStr "2024-01-01T10:00:00", .vStr "2024-01-01T09:00:00",
      .vNum 5, .vNone, .vStr "2024-01-01T08:00:00", .vNum 0, .vNum 0, .vNone, .vNone⟩
    (by decide) (by rw [filter_duration_fields]; exact List.cons_ne_nil _ _)
  refine ⟨⟨s', ?_, ?_⟩, by norm_num⟩
  · unfold recalcRow
    rw [hcalc, bindOk, h1]
  · rw [h3, filter_duration_fields, applyFields_duration]
    rfl

/-- C9 (amended): across the lifecycle transitions the stored duration
never decreases — under the monotone-clock assumption that the pause/stop
instant is not before the session's start — and `resume` leaves it
untouched; the only lowering path is the listing view's manual recompute,
which replaces the stored value outright with the recomputed value (a full
replace, not an accumulation; the value is not clamped and may be
negative). -/
theorem claim_C9_monotonic_except_recalc (s : Store) (now : DateTime) (tid : Int) :
    (∀ task st q s' r,
      get_task s tid = some task →
      task.start_time = .vStr (isoformat st) →
      st.validb = true →
      task.duration.orZero = .ok q →
      st.toSeconds ≤ now.toSeconds →
      pause_task s now tid = .ok (s', r) →
      q ≤ r ∧ (get_task s' tid).map Task.duration = some (.vNum r)) ∧
    (∀ task st q s' r,
      get_task s tid = some task →
      task.start_time = .vStr (isoformat st) →
      st.validb = true →
      task.duration.orZero = .ok q →
      st.toSeconds ≤ now.toSeconds →
      stop_task s now tid = .ok (s', r) →
      q ≤ r ∧ (get_task s' tid).map Task.duration = some (.vNum r)) ∧
    (∀ task s', get_task s tid = some task → resume_task s now tid = .ok s' →
      (get_task s' tid).map Task.duration = some task.duration) ∧
    (∀ startText endText q s' task,
      get_task s tid = some task →
      calculate_duration (.str startText) (.str endText) = .ok q →
      recalcRow s tid startText endText = .ok s' →
      (get_task s' tid).map Task.duration = some (.vNum q)) := by
  have hΔ : ∀ st : DateTime, st.toSeconds ≤ now.toSeconds →
      (0 : ℚ) ≤ (now.toSeconds - st.toSeconds) / 3600 := by
    intro st hle
    have h1 : (0 : ℚ) ≤ now.toSeconds - st.toSeconds := by linarith
    positivity
  refine ⟨?_, ?_, ?_, ?_⟩
  · intro task st q s' r hfind hstart hv hq hle hp
    obtain ⟨S, h1, _, h3, _⟩ := pause_spec s now tid task st q hfind hstart hv hq
    have he := h1.symm.trans hp
    simp only [Except.ok.injEq, Prod.mk.injEq] at he
    obtain ⟨hS, hr⟩ := he
    constructor
    · rw [← hr]
      have := hΔ st hle
      linarith
    · rw [← hS, h3, ← hr]
      rfl
  · intro task st q s' r hfind hstart hv hq hle hp
    obtain ⟨S, h1, _, h3, _⟩ := stop_spec s now tid task st q hfind hstart hv hq
    have he := h1.symm.trans hp
    simp only [Except.ok.injEq, Prod.mk.injEq] at he
    obtain ⟨hS, hr⟩ := he
    constructor
    · rw [← hr]
      have := hΔ st hle
      linarith
    · rw [← hS, h3, ← hr]
      rfl
  · intro task s' hfind hres
    obtain ⟨S, h1, _, h3, _⟩ := resume_spec s now tid task hfind
    have he := h1.symm.trans hres
    simp only [Except.ok.injEq] at he
    rw [← he, h3]
    rfl
  · intro startText endText q s' task hfind hcalc hrec
    unfold recalcRow at hrec
    rw [hcalc, bindOk] at hrec
    obtain ⟨S, h1, _, h3, _⟩ := update_task_row s tid [("duration", .vNum q)] task hfind
      (by rw [filter_duration_fields]; exact List.cons_ne_nil _ _)
    have he := h1.symm.trans hrec
    simp only [Except.ok.injEq] at he
    rw [← he, h3, filter_duration_fields, applyFields_duration]
    rfl

/-- Witness for C9 (amended): pausing a half-hour session on a task with
a stored duration of two hours returns a total no smaller than two and
stores that total. -/
theorem claim_C9_witness :
    ∃ s' r,
      pause_task ⟨[⟨1, .vStr "Fix bug", .vStr "2024-01-01T09:00:00", .vNone,
        .vNum 2, .vNone, .vStr "2024-01-01T08:00:00", .vNum 0, .vNum 0,
        .vNone, .vNone⟩], 2⟩ ⟨2024, 1, 1, 9, 30, 0, 0⟩ 1 = .ok (s', r) ∧
      (2 : ℚ) ≤ r ∧
      (get_task s' 1).map Task.duration = some (.vNum r) := by
  have hle : DateTime.toSeconds ⟨2024, 1, 1, 9, 0, 0, 0⟩ ≤
      DateTime.toSeconds ⟨2024, 1, 1, 9, 30, 0, 0⟩ := by
    rw [toSeconds_eval 2024 1 1 9 0 0 0 738886 (by decide),
      toSeconds_eval 2024 1 1 9 30 0 0 738886 (by decide)]
    norm_num
  obtain ⟨S, hS, _, _, _⟩ := pause_spec
    ⟨[⟨1, .vStr "Fix bug", .vStr "2024-01-01T09:00:00", .vNone, .vNum 2, .vNone,
      .vStr "2024-01-01T08:00:00", .vNum 0, .vNum 0, .vNone, .vNone⟩], 2⟩
    ⟨2024, 1, 1, 9, 30, 0, 0⟩ 1
    ⟨1, .vStr "Fix bug", .vStr "2024-01-01T09:00:00", .vNone, .vNum 2, .vNone,
      .vStr "2024-01-01T08:00:00", .vNum 0, .vNum 0, .vNone, .vNone⟩
    ⟨2024, 1, 1, 9, 0, 0, 0⟩ 2 (by decide) (by decide) (by decide) rfl
  have hm := (claim_C9_monotonic_except_recalc
    ⟨[⟨1, .vStr "Fix bug", .vStr "2024-01-01T09:00:00", .vNone, .vNum 2, .vNone,
      .vStr "2024-01-01T08:00:00", .vNum 0, .vNum 0, .vNone, .vNone⟩], 2⟩
    ⟨2024, 1, 1, 9, 30, 0, 0⟩ 1).1
    ⟨1, .vStr "Fix bug", .vStr "2024-01-01T09:00:00", .vNone, .vNum 2, .vNone,
      .vStr "2024-01-01T08:00:00", .vNum 0, .vNum 0, .vNone, .vNone⟩
    ⟨2024, 1, 1, 9, 0, 0, 0⟩ 2 S _
    (by decide) (by decide) (by decide) rfl hle hS
  exact ⟨S, _, hS, hm.1, hm.2⟩

/-- C1: starting a task and driving it through pause → resume → … → stop
makes every pause/stop return the previously stored total plus the
just-ended session's hours, and leaves the final stored duration equal to
the sum of all session lengths. -/
theorem claim_C1_duration_accumulation (s : Store) (hwf : s.wf)
    (task_name : String) (jira_key notes : Option String) (nowCreate : DateTime)
    (first : DateTime × DateTime) (rest : List (DateTime × DateTime))
    (hv : ∀ p ∈ first :: rest, p.1.validb = true) :
    ∃ s1 s' task',
      start_task s nowCreate first.1 task_name jira_key notes = .ok (s1, s.nextId) ∧
      runSessions s1 s.nextId first rest = .ok (s', runningTotals 0 first rest) ∧
      get_task s' s.nextId = some task' ∧
      task'.duration = .vNum (sessionsSum (first :: rest)) := by
  obtain ⟨st0, en0⟩ := first
  obtain ⟨s1, h1, h2⟩ := start_spec s hwf nowCreate st0 task_name jira_key notes
  obtain ⟨s', task', hr1, hr2, hr3⟩ := runSessions_spec rest s1 s.nextId _ st0 en0 0
    h2 rfl (hv (st0, en0) (List.mem_cons_self _ _))
    (fun p hp => hv p (List.mem_cons_of_mem _ hp)) rfl
  refine ⟨s1, s', task', h1, hr1, hr2, ?_⟩
  rw [hr3, zero_add]

/-- Witness for C1: Scenario B — start at 09:00, pause at 09:30 returns
one half, resume at 10:00, stop at 10:30 returns one; the stored duration
ends at one hour. -/
theorem claim_C1_witness :
    ∃ s1 s' task',
      start_task ⟨[], 1⟩ ⟨2024, 1, 1, 9, 0, 0, 0⟩ ⟨2024, 1, 1, 9, 0, 0, 0⟩
        "Fix bug" (some "PROJ-1") none = .ok (s1, 1) ∧
      runSessions s1 1 (⟨2024, 1, 1, 9, 0, 0, 0⟩, ⟨2024, 1, 1, 9, 30, 0, 0⟩)
        [(⟨2024, 1, 1, 10, 0, 0, 0⟩, ⟨2024, 1, 1, 10, 30, 0, 0⟩)] =
        .ok (s', [1 / 2, 1]) ∧
      get_task s' 1 = some task' ∧
      task'.duration = .vNum 1 := by
  obtain ⟨s1, s', task', h1, h2, h3, h4⟩ :=
    claim_C1_duration_accumulation ⟨[], 1⟩
      (fun t ht => absurd ht (List.not_mem_nil t)) "Fix bug" (some "PROJ-1") none
      ⟨2024, 1, 1, 9, 0, 0, 0⟩
      (⟨2024, 1, 1, 9, 0, 0, 0⟩, ⟨2024, 1, 1, 9, 30, 0, 0⟩)
      [(⟨2024, 1, 1, 10, 0, 0, 0⟩, ⟨2024, 1, 1, 10, 30, 0, 0⟩)]
      (by decide)
  have e900 := toSeconds_eval 2024 1 1 9 0 0 0 738886 (by decide)
  have e930 := toSeconds_eval 2024 1 1 9 30 0 0 738886 (by decide)
  have e1000 := toSeconds_eval 2024 1 1 10 0 0 0 738886 (by decide)
  have e1030 := toSeconds_eval 2024 1 1 10 30 0 0 738886 (by decide)
  refine ⟨s1, s', task', h1, ?_, h3, ?_⟩
  · rw [show runningTotals 0 (⟨2024, 1, 1, 9, 0, 0, 0⟩, ⟨2024, 1, 1, 9, 30, 0, 0⟩)
        [(⟨2024, 1, 1, 10, 0, 0, 0⟩, ⟨2024, 1, 1, 10, 30, 0, 0⟩)] =
      [1 / 2, 1] from by
        simp only [runningTotals]
        rw [e900, e930, e1000, e1030]
        norm_num] at h2
    exact h2
  · rw [show sessionsSum [(⟨2024, 1, 1, 9, 0, 0, 0⟩, ⟨2024, 1, 1, 9, 30, 0, 0⟩),
        (⟨2024, 1, 1, 10, 0, 0, 0⟩, ⟨2024, 1, 1, 10, 30, 0, 0⟩)] = 1 from by
        simp only [sessionsSum]
        rw [e900, e930, e1000, e1030]
        norm_num] at h4
    exact h4

end JiraTracker
